import Mathlib

/-!
Verification development for the OCI carbon-emissions reporting script
(`src/reporting/oci_carbon_emissions.py`).

Strings are modelled as `List Char` wherever character-level parsing or
formatting matters (date strings), and as `String` where they are only
compared for equality (field names, service names).  Emission values are
modelled as rationals (`ℚ`); Python `int` arithmetic is modelled with
`Nat`/`Int`.  Fallible operations return `Option`/`Except`.
-/

namespace GreenOps

/-! ## Character / numeral helpers (model of `strftime` zero padding and
digit parsing used by `strptime` / `datetime.fromisoformat`) -/

/-- The decimal digit character for `n % 10`. -/
def digitChar (n : Nat) : Char := Char.ofNat (48 + n % 10)

/-- Two-digit zero-padded rendering, as produced by `strftime` `%m`/`%d`. -/
def pad2 (n : Nat) : List Char := [digitChar (n / 10), digitChar n]

/-- Four-digit rendering, as produced by `strftime` `%Y` for years 1000–9999. -/
def pad4 (n : Nat) : List Char :=
  [digitChar (n / 1000), digitChar (n / 100), digitChar (n / 10), digitChar n]

/-- The year as rendered by `strftime` `%Y`: glibc does not zero-pad, so
years below 1000 render with fewer than four digits (year range 1-9999,
as Python's `datetime` accepts). -/
def fmtYear (y : Nat) : List Char :=
  if y < 10 then [digitChar y]
  else if y < 100 then [digitChar (y / 10), digitChar y]
  else if y < 1000 then [digitChar (y / 100), digitChar (y / 10), digitChar y]
  else pad4 y

/-- Value of a decimal digit character, `none` for non-digits. -/
def digitVal (c : Char) : Option Nat :=
  if 48 ≤ c.toNat ∧ c.toNat ≤ 57 then some (c.toNat - 48) else none

/-- Read exactly two digit characters. -/
def read2 : List Char → Option (Nat × List Char)
  | a :: b :: rest =>
    match digitVal a, digitVal b with
    | some x, some y => some (10 * x + y, rest)
    | _, _ => none
  | _ => none

/-- Read exactly four digit characters. -/
def read4 : List Char → Option (Nat × List Char)
  | a :: b :: c :: d :: rest =>
    match digitVal a, digitVal b, digitVal c, digitVal d with
    | some x, some y, some z, some w => some (1000 * x + 100 * y + 10 * z + w, rest)
    | _, _, _, _ => none
  | _ => none

/-- Consume one expected character. -/
def expectChar (c : Char) : List Char → Option (List Char)
  | x :: rest => if x = c then some rest else none
  | [] => none

/-- Gregorian leap year, as in Python's `datetime`. -/
def isLeap (y : Nat) : Bool := (y % 4 == 0 && y % 100 != 0) || y % 400 == 0

/-- Days in a month, as validated by Python's `datetime` constructor. -/
def daysInMonth (y m : Nat) : Nat :=
  if m = 2 then (if isLeap y then 29 else 28)
  else if m = 4 ∨ m = 6 ∨ m = 9 ∨ m = 11 then 30
  else 31

/-- Parse a `YYYY-MM-DD` date prefix (exactly four year digits, as both
`strptime` `%Y` and `fromisoformat` require) and validate it as a real
calendar date; Python's `datetime` accepts years 1-9999. -/
def parseYMD (cs : List Char) : Option ((Nat × Nat × Nat) × List Char) :=
  match read4 cs with
  | none => none
  | some (y, cs1) =>
    match expectChar '-' cs1 with
    | none => none
    | some cs2 =>
      match read2 cs2 with
      | none => none
      | some (m, cs3) =>
        match expectChar '-' cs3 with
        | none => none
        | some cs4 =>
          match read2 cs4 with
          | none => none
          | some (d, cs5) =>
            if 1 ≤ y ∧ 1 ≤ m ∧ m ≤ 12 ∧ 1 ≤ d ∧ d ≤ daysInMonth y m then
              some ((y, m, d), cs5)
            else none

/-- Number of leading decimal digits. -/
def countLeadingDigits : List Char → Nat
  | c :: rest => match digitVal c with
    | some _ => countLeadingDigits rest + 1
    | none => 0
  | [] => 0

/-- Parse a UTC-offset suffix `±HH:MM`. -/
def parseOffset : List Char → Option (List Char)
  | c :: rest =>
    if c = '+' ∨ c = '-' then
      match read2 rest with
      | some (oh, r1) =>
        match expectChar ':' r1 with
        | some r2 =>
          match read2 r2 with
          | some (om, r3) => if oh ≤ 23 ∧ om ≤ 59 then some r3 else none
          | none => none
        | none => none
      | none => none
    else none
  | [] => none

/-- Parse the time-of-day tail accepted after `T`:
`HH:MM[:SS[.ffffff]][±HH:MM]`, consuming the whole remaining input
(the subset of `datetime.fromisoformat` time syntax modelled here). -/
def parseTimeTail (cs : List Char) : Option Unit :=
  match read2 cs with
  | none => none
  | some (hh, r1) =>
    match expectChar ':' r1 with
    | none => none
    | some r2 =>
      match read2 r2 with
      | none => none
      | some (mi, r3) =>
        if hh ≤ 23 ∧ mi ≤ 59 then
          let afterSec : Option (Nat × List Char) :=
            match expectChar ':' r3 with
            | some r4 =>
              match read2 r4 with
              | some (ss, r5) =>
                match r5 with
                | '.' :: r6 =>
                  let k := countLeadingDigits r6
                  if 1 ≤ k ∧ k ≤ 6 then some (ss, r6.drop k) else none
                | _ => some (ss, r5)
              | none => none
            | none => some (0, r3)
          match afterSec with
          | none => none
          | some (ss, r7) =>
            if ss ≤ 59 then
              match r7 with
              | [] => some ()
              | _ =>
                match parseOffset r7 with
                | some [] => some ()
                | _ => none
            else none
        else none

/-- Model of Python `date_str.replace('Z', '+00:00')`. -/
def replaceZ : List Char → List Char
  | [] => []
  | c :: rest => (if c = 'Z' then ['+', '0', '0', ':', '0', '0'] else [c]) ++ replaceZ rest

/-- The string produced by
`dt.replace(day=1, hour=0, ...).strftime("%Y-%m-%dT00:00:00Z")`; note the
year is not zero-padded, so only years of at least 1000 give the
`YYYY-MM-01T00:00:00Z` shape. -/
def fmtFirstOfMonth (y m : Nat) : List Char :=
  fmtYear y ++ '-' :: pad2 m ++
    ['-', '0', '1', 'T', '0', '0', ':', '0', '0', ':', '0', '0', 'Z']

/-- Embedding of `_parse_and_validate_datetime`: branch on `'T' in date_str`;
the ISO branch first replaces `'Z'` with `'+00:00'` and then parses a full
timestamp, the other branch parses `"%Y-%m-%d"` exactly; the parsed date is
then coerced to the first of its month at midnight UTC and re-serialized. -/
def parse_and_validate_datetime (s : List Char) : Option (List Char) :=
  if 'T' ∈ s then
    match parseYMD (replaceZ s) with
    | none => none
    | some ((y, m, _), rest) =>
      match expectChar 'T' rest with
      | none => none
      | some r2 =>
        match parseTimeTail r2 with
        | some _ => some (fmtFirstOfMonth y m)
        | none => none
  else
    match parseYMD s with
    | some ((y, m, _), []) => some (fmtFirstOfMonth y m)
    | _ => none

/-! ## `calculate_first_day_date_range` -/

/-- The string produced by `strftime("%Y-%m-%d")`. -/
def fmtYMD (y m d : Nat) : List Char := pad4 y ++ '-' :: pad2 m ++ '-' :: pad2 d

/-- Embedding of `calculate_first_day_date_range`; `today` is passed in
explicitly as `(ty, tm, td)` since `datetime.now()` is an external input.
A period type other than the two recognized ones leaves the local result
variables unbound in the source, modelled as `none`. -/
def calculate_first_day_date_range (period_type : String) (ty tm td : Nat) :
    Option (List Char × List Char) :=
  if period_type = "last_month" then
    let start : Nat × Nat := if tm = 1 then (ty - 1, 12) else (ty, tm - 1)
    some (fmtYMD start.1 start.2 1, fmtYMD ty tm 1)
  else if period_type = "last_3_months" then
    let month : Int := (tm : Int) - 3
    let ym : Int × Int :=
      if month ≤ 0 then ((ty : Int) - 1, month + 12) else ((ty : Int), month)
    some (fmtYMD ym.1.toNat ym.2.toNat 1, fmtYMD ty tm 1)
  else none

/-- Spec-side helper: the first-of-month date `k` calendar months before
month `m` of year `y`, with year rollover. -/
def monthsEarlier (y m k : Nat) : Nat × Nat :=
  if k < m then (y, m - k) else (y - 1, m + 12 - k)

/-! ## `validate_group_by_fields` -/

def power_based_supported : List String :=
  ["service", "compartmentName", "compartmentId", "region",
   "tenantId", "tenantName", "subscriptionId"]

def spend_based_supported : List String :=
  ["service", "compartmentName", "compartmentId", "region",
   "tenantId", "tenantName", "subscriptionId", "platform",
   "resourceId", "resourceName", "skuName", "skuPartNumber"]

/-- Embedding of `validate_group_by_fields`: filter by the calculation
method's supported list (any method other than `POWER_BASED` takes the
spend-based branch, as in the source's `else`), default to `["service"]`
when the filter empties the list, and truncate to the first 4 fields. -/
def validate_group_by_fields (group_by : List String) (calculation_method : String) :
    List String :=
  let valid_fields :=
    if calculation_method = "POWER_BASED" then
      group_by.filter (fun f => power_based_supported.contains f)
    else
      group_by.filter (fun f => spend_based_supported.contains f)
  let valid_fields := if valid_fields.isEmpty then ["service"] else valid_fields
  if 4 < valid_fields.length then valid_fields.take 4 else valid_fields

/-- The capability set actually applied for a calculation-method string. -/
def supported_fields (calculation_method : String) : List String :=
  if calculation_method = "POWER_BASED" then power_based_supported else spend_based_supported

/-! ## Pagination (`get_full_dataset_paginated`)

The emissions query client is an external collaborator; one call is
modelled as a function from the number of previously issued calls to a
result page or a client error.  Records are opaque (`α`). -/

/-- One API response page: items plus continuation token (`opc_next_page`). -/
structure ResultPage (α : Type) where
  items : List α
  opc_next_page : Option (List Char)
deriving DecidableEq

/-- Exceptions that can escape `get_full_dataset_paginated`:
the re-raised client error (empty accumulator), or the
`UnboundLocalError` raised in the `except` handler because the
`CombinedResult` class statement — placed after the loop inside the
`try` block — has not executed yet when a page fetch raises. -/
inductive PagErr (ε : Type) where
  | client (e : ε)
  | unboundCombinedResult
deriving DecidableEq

/-- Python truthiness of `page_token` at `if not page_token: break`
(`None` and the empty string are both falsy). -/
def tokenFalsy : Option (List Char) → Bool
  | none => true
  | some t => t.isEmpty

/-- Python truthiness test `max_records and total_records >= max_records`. -/
def maxRecordsHit (mr : Option Nat) (total : Nat) : Bool :=
  match mr with
  | none => false
  | some m => !(m == 0) && decide (m ≤ total)

/-- The `while True` pagination loop.  `pages_done` counts completed loop
iterations (`page_count` in the source is `pages_done + 1` inside the
iteration).  `fuel` makes the recursion structural; started at 1000 it can
never run out before the source's own `page_count >= 1000` stop (the
fuel-exhausted branch returns the same value as that stop). -/
def fetch_loop (client : Nat → Except ε (ResultPage α)) (mr : Option Nat) :
    Nat → List α → Nat → Except (PagErr ε) (List α) × Nat
  | fuel, all_items, pages_done =>
    let pc := pages_done + 1
    match client pages_done with
    | .error e =>
      (if all_items.isEmpty then .error (.client e) else .error .unboundCombinedResult, pc)
    | .ok page =>
      let all2 := all_items ++ page.items
      if !page.items.isEmpty && maxRecordsHit mr all2.length then
        (.ok (all2.take (mr.getD 0)), pc)
      else if tokenFalsy page.opc_next_page then
        (.ok all2, pc)
      else if 1000 ≤ pc then
        (.ok all2, pc)
      else
        match fuel with
        | 0 => (.ok all2, pc)
        | fuel' + 1 => fetch_loop client mr fuel' all2 pc

/-- Embedding of `get_full_dataset_paginated`: the accumulated dataset (or
escaped exception) together with the number of pages requested. -/
def get_full_dataset_paginated (client : Nat → Except ε (ResultPage α))
    (mr : Option Nat) : Except (PagErr ε) (List α) × Nat :=
  fetch_loop client mr 1000 [] 0

/-- Number of client calls issued by a full-dataset retrieval. -/
def pagesIssued (client : Nat → Except ε (ResultPage α)) (mr : Option Nat) : Nat :=
  (get_full_dataset_paginated client mr).2

/-- Length of the returned dataset (0 for an escaped exception). -/
def datasetLen (r : Except (PagErr ε) (List α) × Nat) : Nat :=
  match r.1 with
  | .ok l => l.length
  | .error _ => 0

/-! ## Fallback strategy and multi-query aggregation (`main`,
multi-query branch) -/

/-- The fields of an emission record that the fallback / summary logic
inspects. -/
structure EmissionRec where
  service : Option String
  compartment_name : Option String
  compartment_id : Option String
  computed_carbon_emission : Option ℚ
deriving DecidableEq

/-- `float(item.computed_carbon_emission or 0)`. -/
def emissionVal (r : EmissionRec) : ℚ := r.computed_carbon_emission.getD 0

/-- Which query configuration an attempt used. -/
inductive Attempt where
  | primary
  | alternate
deriving DecidableEq

/-- Exceptions that can reach the per-combination `except` handler:
`noneItemsAttribute` is the `AttributeError` raised by `data.items` when
both attempts failed and `data` is still `None`.  (`client` exists to
state propagation claims; the body wraps every client call, so the
translation never produces it.) -/
inductive ComboErr (ε : Type) where
  | client (e : ε)
  | noneItemsAttribute
deriving DecidableEq

/-- Embedding of one group-by combination of the multi-query branch:
try `POWER_BASED`/`LOCATION_BASED`; treat an empty item list or a list
with no strictly positive emission value as no data; then retry once with
`SPEND_BASED`/`MARKET_BASED`; finally evaluate `data.items`.  Returns the
records this combination contributes (possibly `[]`) or the exception
reaching the per-combination handler, plus the trace of attempts issued. -/
def combo_body (prim alt : Except ε (List EmissionRec)) :
    Except (ComboErr ε) (List EmissionRec) × List Attempt :=
  let data0 : Option (List EmissionRec) :=
    match prim with
    | .ok items =>
      if !items.isEmpty && items.any (fun r => decide (0 < emissionVal r)) then
        some items
      else none
    | .error _ => none
  let noData : Bool :=
    match data0 with
    | none => true
    | some items => items.isEmpty
  let step : Option (List EmissionRec) × List Attempt :=
    if noData then
      match alt with
      | .ok items2 => (some items2, [Attempt.primary, Attempt.alternate])
      | .error _ => (data0, [Attempt.primary, Attempt.alternate])
    else (data0, [Attempt.primary])
  match step.1 with
  | none => (.error .noneItemsAttribute, step.2)
  | some items => (.ok items, step.2)

/-- Records a combination contributes to `all_data` after the
per-combination `except ...: continue` (a caught exception contributes
nothing). -/
def comboRecords (c : Except ε (List EmissionRec) × Except ε (List EmissionRec)) :
    List EmissionRec :=
  match (combo_body c.1 c.2).1 with
  | .ok l => l
  | .error _ => []

/-- Embedding of the multi-query aggregation over the fixed combination
list: run every combination, concatenate contributed records; `none`
models the `"No data retrieved from any query"` early return. -/
def multi_query_dataset
    (combos : List (Except ε (List EmissionRec) × Except ε (List EmissionRec))) :
    Option (List EmissionRec) :=
  let all_data := (combos.map comboRecords).flatten
  if all_data.isEmpty then none else some all_data

/-! ## Summary aggregation (`print_summary`) -/

/-- `getattr(item, 'service', 'Unknown')` with `None` coerced to
`'Unknown'`. -/
def serviceName (r : EmissionRec) : String := r.service.getD "Unknown"

/-- Python dict accumulation: add `v` to an existing key's total (keeping
its position) or append the new key at the end (dict insertion order). -/
def upsertAdd (l : List (String × ℚ)) (k : String) (v : ℚ) : List (String × ℚ) :=
  match l with
  | [] => [(k, v)]
  | (k', v') :: rest =>
    if k' = k then (k', v' + v) :: rest else (k', v') :: upsertAdd rest k v

/-- Per-service totals in first-encounter order. -/
def service_totals (items : List EmissionRec) : List (String × ℚ) :=
  items.foldl (fun acc r => upsertAdd acc (serviceName r) (emissionVal r)) []

/-- Grand total, accumulated by addition in encounter order. -/
def total_emissions (items : List EmissionRec) : ℚ :=
  items.foldl (fun acc r => acc + emissionVal r) 0

/-- Stable insertion for descending order: an element is placed before the
first strictly smaller value, after equal ones already present. -/
def insertDesc (x : String × ℚ) : List (String × ℚ) → List (String × ℚ)
  | [] => [x]
  | y :: ys => if x.2 < y.2 then y :: insertDesc x ys else x :: y :: ys

/-- Model of Python's stable `sorted(..., key=value, reverse=True)`:
descending by value, ties in original (encounter) order. -/
def sortByEmissionsDesc (l : List (String × ℚ)) : List (String × ℚ) :=
  l.foldr insertDesc []

/-- The displayed service rows: `(service, total, percentage)` in display
order; the percentage is of the grand total, or 0 when the total is not
positive. -/
def summary_rows (items : List EmissionRec) : List (String × ℚ × ℚ) :=
  let tot := total_emissions items
  (sortByEmissionsDesc (service_totals items)).map
    (fun p => (p.1, p.2, if 0 < tot then p.2 / tot * 100 else 0))

/-! ## Instances and concrete test inputs -/

instance {ε α : Type} [DecidableEq ε] [DecidableEq α] : DecidableEq (Except ε α) :=
  fun x y =>
    match x, y with
    | .ok a, .ok b =>
      match decEq a b with
      | .isTrue h => .isTrue (h ▸ rfl)
      | .isFalse h => .isFalse (fun hh => h (Except.ok.inj hh))
    | .error a, .error b =>
      match decEq a b with
      | .isTrue h => .isTrue (h ▸ rfl)
      | .isFalse h => .isFalse (fun hh => h (Except.error.inj hh))
    | .ok _, .error _ => .isFalse (fun hh => Except.noConfusion hh)
    | .error _, .ok _ => .isFalse (fun hh => Except.noConfusion hh)

/-- Client stub serving three pages of 500, 500 and 200 records (record =
its global index), with no continuation token on the third page. -/
def client3 : Nat → Except Unit (ResultPage Nat) := fun n =>
  if n = 0 then .ok ⟨List.range' 0 500, some ['t']⟩
  else if n = 1 then .ok ⟨List.range' 500 500, some ['t']⟩
  else if n = 2 then .ok ⟨List.range' 1000 200, none⟩
  else .error ()

/-- Client that serves two 500-record pages, then raises. -/
def clientRaisesAfter2 : Nat → Except Nat (ResultPage Nat) := fun n =>
  if n < 2 then .ok ⟨List.range' (500 * n) 500, some ['t']⟩ else .error 7

/-- Client that raises on the very first page. -/
def clientRaisesFirst : Nat → Except Nat (ResultPage Nat) := fun _ => .error 7

/-- A record with service `A` and emission value 3. -/
def recA : EmissionRec := ⟨some "A", none, none, some 3⟩

/-- A record with service `B` and emission value 1. -/
def recB : EmissionRec := ⟨some "B", none, none, some 1⟩

/-- A record whose emission value is exactly zero. -/
def zeroRec : EmissionRec := ⟨some "A", none, none, some 0⟩

/-! ## Theorems -/

/-- Claim C8: for every requested field list and calculation method,
`validate_group_by_fields` drops the fields outside the method's
capability set, substitutes `["service"]` when the filtered list is
empty, and truncates to the first 4 fields preserving original order;
in particular `validate(["platform","service","foo"], POWER_BASED)`
yields `["service"]`, and validating 5 supported fields under
`SPEND_BASED` yields exactly the first 4 in original order. -/
theorem validate_group_by_fields_spec :
    (∀ (gb : List String) (method : String),
      validate_group_by_fields gb method =
        (let filtered := gb.filter (fun f => (supported_fields method).contains f)
         if filtered.isEmpty then ["service"] else filtered.take 4)) ∧
    validate_group_by_fields ["platform", "service", "foo"] "POWER_BASED" = ["service"] ∧
    validate_group_by_fields
        ["service", "compartmentName", "resourceId", "skuName", "platform"] "SPEND_BASED" =
      ["service", "compartmentName", "resourceId", "skuName"] := by
  refine ⟨?_, by decide, by decide⟩
  intro gb method
  have shape : ∀ sup : List String,
      (let v0 := gb.filter (fun f => sup.contains f)
       let v1 := if v0.isEmpty then ["service"] else v0
       if 4 < v1.length then v1.take 4 else v1) =
      (let filtered := gb.filter (fun f => sup.contains f)
       if filtered.isEmpty then ["service"] else filtered.take 4) := by
    intro sup
    show (if 4 < (if (gb.filter (fun f => sup.contains f)).isEmpty then ["service"]
            else gb.filter (fun f => sup.contains f)).length then
          (if (gb.filter (fun f => sup.contains f)).isEmpty then ["service"]
            else gb.filter (fun f => sup.contains f)).take 4
          else (if (gb.filter (fun f => sup.contains f)).isEmpty then ["service"]
            else gb.filter (fun f => sup.contains f))) =
        (if (gb.filter (fun f => sup.contains f)).isEmpty then ["service"]
          else (gb.filter (fun f => sup.contains f)).take 4)
    by_cases he : (gb.filter (fun f => sup.contains f)).isEmpty
    · rw [if_pos he, if_pos he]
      simp
    · rw [if_neg he, if_neg he]
      split
      · rfl
      · exact (List.take_of_length_le (by omega)).symm
  by_cases hm : method = "POWER_BASED"
  · simpa only [validate_group_by_fields, supported_fields, if_pos hm] using
      shape power_based_supported
  · simpa only [validate_group_by_fields, supported_fields, if_neg hm] using
      shape spend_based_supported

/-- Claim C7: `calculate_first_day_date_range` returns two first-of-month
date strings where the end is the first day of the current month and the
start is 1 or 3 calendar months earlier with correct year rollover; in
particular with today = 2024-02-15 the last-3-months period is
(2023-11-01, 2024-02-01), and with today = 2024-01-10 it is
(2023-10-01, 2024-01-01). -/
theorem calculate_first_day_date_range_spec (y m d : Nat)
    (h1 : 1 ≤ m) (h2 : m ≤ 12) (h3 : 1 ≤ y) :
    calculate_first_day_date_range "last_month" y m d =
      some (fmtYMD (monthsEarlier y m 1).1 (monthsEarlier y m 1).2 1, fmtYMD y m 1) ∧
    calculate_first_day_date_range "last_3_months" y m d =
      some (fmtYMD (monthsEarlier y m 3).1 (monthsEarlier y m 3).2 1, fmtYMD y m 1) ∧
    calculate_first_day_date_range "last_3_months" 2024 2 15 =
      some ("2023-11-01".toList, "2024-02-01".toList) ∧
    calculate_first_day_date_range "last_3_months" 2024 1 10 =
      some ("2023-10-01".toList, "2024-01-01".toList) := by
  refine ⟨?_, ?_, by decide, by decide⟩
  · have harg : (if m = 1 then ((y - 1 : Nat), (12 : Nat)) else (y, m - 1)) =
        monthsEarlier y m 1 := by
      unfold monthsEarlier
      split <;> split <;> (first | rfl | omega | (exfalso; omega) | (congr 1 <;> omega))
    simp only [calculate_first_day_date_range, if_pos rfl, harg]
    simp
  · have hne : ¬ ("last_3_months" : String) = "last_month" := by decide
    have he1 : ((if (m : Int) - 3 ≤ 0 then ((y : Int) - 1, (m : Int) - 3 + 12)
        else ((y : Int), (m : Int) - 3)).1).toNat = (monthsEarlier y m 3).1 := by
      unfold monthsEarlier
      split <;> split <;> simp <;> omega
    have he2 : ((if (m : Int) - 3 ≤ 0 then ((y : Int) - 1, (m : Int) - 3 + 12)
        else ((y : Int), (m : Int) - 3)).2).toNat = (monthsEarlier y m 3).2 := by
      unfold monthsEarlier
      split <;> split <;> simp <;> omega
    simp only [calculate_first_day_date_range, if_neg hne, if_pos rfl, he1, he2]
    simp

/-- The grand total accumulates by addition in encounter order starting
from any initial value. -/
theorem total_emissions_foldl (items : List EmissionRec) (init : ℚ) :
    items.foldl (fun acc r => acc + emissionVal r) init =
      init + (items.map emissionVal).sum := by
  induction items generalizing init with
  | nil => simp
  | cons r rest ih => simp [ih, add_assoc]

/-- Claim C9: the summary's grand total is the sum of every record's
emission value added in encounter order, and each service's percentage is
its total over the grand total, services listed in descending order of
total; on records `[(A, 3), (B, 1)]` it reports total 4, A = 75%,
B = 25%, with A listed before B. -/
theorem print_summary_spec :
    (∀ items : List EmissionRec,
      total_emissions items = (items.map emissionVal).sum) ∧
    total_emissions [recA, recB] = 4 ∧
    summary_rows [recA, recB] = [("A", 3, 75), ("B", 1, 25)] := by
  refine ⟨fun items => ?_, ?_, ?_⟩
  · simpa using total_emissions_foldl items 0
  · norm_num [total_emissions, emissionVal, recA, recB]
  · norm_num [summary_rows, service_totals, total_emissions, upsertAdd, serviceName,
      emissionVal, sortByEmissionsDesc, recA, recB]
    rw [if_neg (by decide : ¬ ("A" : String) = "B")]
    norm_num [insertDesc]

/-- Claim C2: the pagination loop accumulates the records of successive
pages in page-arrival order while a continuation token is present: the
three-page client stub (500 + 500 + 200 records, numbered by global
index) yields exactly the 1200 records in order, and with
`max_records = 1000` exactly the first 1000 of them, cut at the third
page. -/
theorem pagination_accumulates_in_order :
    (get_full_dataset_paginated client3 none).1 = .ok (List.range' 0 1200) ∧
    (get_full_dataset_paginated client3 (some 1000)).1 = .ok (List.range' 0 1000) := by
  constructor
  · show (fetch_loop client3 none 1000 [] 0).1 = .ok (List.range' 0 1200)
    rw [fetch_loop]
    norm_num [client3, tokenFalsy, maxRecordsHit]
    rw [fetch_loop]
    norm_num [client3, tokenFalsy, maxRecordsHit]
    rw [fetch_loop]
    norm_num [client3, tokenFalsy, maxRecordsHit]
    have h1 := List.range'_append_1 500 500 200
    have h2 := List.range'_append_1 0 500 700
    norm_num at h1 h2
    rw [h1, h2]
  · show (fetch_loop client3 (some 1000) 1000 [] 0).1 = .ok (List.range' 0 1000)
    rw [fetch_loop]
    simp only [client3, reduceIte, List.nil_append, maxRecordsHit, List.length_range',
      tokenFalsy, Nat.reduceBEq, Bool.not_false, Nat.reduceLeDiff, decide_False,
      Bool.and_false, Bool.false_eq_true, if_false, List.isEmpty_cons, Option.getD_some]
    have h2 := List.range'_append_1 0 500 500
    norm_num at h2
    rw [fetch_loop]
    simp only [client3, reduceIte, maxRecordsHit, List.length_append, List.length_range',
      tokenFalsy, Nat.reduceBEq, Bool.not_false, Nat.reduceAdd, Nat.reduceLeDiff, decide_True,
      Bool.and_true, Bool.true_and, List.isEmpty_eq_true, List.range'_eq_nil, Nat.reduceEqDiff,
      Bool.not_false, if_true, Option.getD_some, h2]
    have h3 : (List.range' 500 500).isEmpty = false := by
      simp [List.range'_eq_nil]
    have h4 : List.take 1000 (List.range' 0 1000) = List.range' 0 1000 :=
      List.take_of_length_le (by simp)
    simp only [h3, h4, Bool.not_false, if_true, reduceIte]

/-- Claim C1 (code bug): when a page fetch raises after at least one page
was accumulated, the source intends to return the partial dataset, but
the `except` handler references the `CombinedResult` class — whose
defining statement, placed after the loop inside the `try` block, has not
executed yet — so an `UnboundLocalError` escapes instead of the partial
dataset; when the first fetch raises, the client error itself is
re-raised as specified. -/
theorem pagination_error_handling_bug :
    (get_full_dataset_paginated clientRaisesAfter2 none).1 =
      .error .unboundCombinedResult ∧
    (get_full_dataset_paginated clientRaisesFirst none).1 = .error (.client 7) := by
  constructor
  · show (fetch_loop clientRaisesAfter2 none 1000 [] 0).1 = .error .unboundCombinedResult
    rw [fetch_loop]
    norm_num [clientRaisesAfter2, tokenFalsy, maxRecordsHit]
    rw [fetch_loop]
    norm_num [clientRaisesAfter2, tokenFalsy, maxRecordsHit]
    rw [fetch_loop]
    norm_num [clientRaisesAfter2, tokenFalsy, maxRecordsHit, List.range'_eq_nil,
      List.append_eq_nil]
  · show (fetch_loop clientRaisesFirst none 1000 [] 0).1 = .error (.client 7)
    rw [fetch_loop]
    norm_num [clientRaisesFirst]

/-- The pagination loop never issues more than 1000 client calls. -/
theorem fetch_loop_pages_le {ε α : Type} (client : Nat → Except ε (ResultPage α))
    (mr : Option Nat) :
    ∀ (fuel : Nat) (all_items : List α) (pages_done : Nat), pages_done < 1000 →
      (fetch_loop client mr fuel all_items pages_done).2 ≤ 1000 := by
  intro fuel
  induction fuel with
  | zero =>
    intro all_items pages_done h
    rw [fetch_loop]
    cases hc : client pages_done with
    | error e => simp; omega
    | ok page =>
      simp only []
      split
      · simp; omega
      split
      · simp; omega
      split
      · simp; omega
      · simp; omega
  | succ fuel ih =>
    intro all_items pages_done h
    rw [fetch_loop]
    cases hc : client pages_done with
    | error e => simp; omega
    | ok page =>
      simp only []
      split
      · simp; omega
      split
      · simp; omega
      split
      · simp; omega
      · rename_i hpc
        exact ih _ _ (by omega)

/-- If the stop condition for the record cap is false, the accumulator
stays strictly below the cap. -/
theorem fetch_loop_cond_len {α : Type} (m : Nat) (hm : 0 < m) (all_items items : List α)
    (h : all_items.length < m)
    (hcond : ¬ ((!items.isEmpty && maxRecordsHit (some m) (all_items ++ items).length) = true)) :
    (all_items ++ items).length < m := by
  by_cases hpi : items.isEmpty
  · have hnil : items = [] := List.isEmpty_iff.mp hpi
    simpa [hnil] using h
  · have hmr : ¬ maxRecordsHit (some m) (all_items ++ items).length = true := by
      intro hx
      apply hcond
      rw [Bool.and_eq_true]
      exact ⟨by simp [hpi], hx⟩
    have hm0 : (m == 0) = false := by simp; omega
    simp only [maxRecordsHit, hm0, Bool.not_false, Bool.true_and, decide_eq_true_eq,
      not_le] at hmr
    exact hmr

/-- With a record cap `m > 0`, the dataset the loop returns never exceeds
`m` records (it truncates to exactly `m` when the cap fires). -/
theorem fetch_loop_truncates {ε α : Type} (client : Nat → Except ε (ResultPage α))
    (m : Nat) (hm : 0 < m) :
    ∀ (fuel : Nat) (all_items : List α) (pages_done : Nat), all_items.length < m →
      datasetLen (fetch_loop client (some m) fuel all_items pages_done) ≤ m := by
  intro fuel
  induction fuel with
  | zero =>
    intro all_items pages_done h
    rw [fetch_loop]
    cases hc : client pages_done with
    | error e => by_cases hie : all_items.isEmpty <;> simp [hie, datasetLen]
    | ok page =>
      simp only []
      split
      · simp only [datasetLen, Option.getD_some, List.length_take]
        omega
      rename_i hcond
      have hlen := fetch_loop_cond_len m hm all_items page.items h hcond
      simp only [List.length_append] at hlen
      split
      · simp only [datasetLen, List.length_append]
        omega
      split
      · simp only [datasetLen, List.length_append]
        omega
      · simp only [datasetLen, List.length_append]
        omega
  | succ fuel ih =>
    intro all_items pages_done h
    rw [fetch_loop]
    cases hc : client pages_done with
    | error e => by_cases hie : all_items.isEmpty <;> simp [hie, datasetLen]
    | ok page =>
      simp only []
      split
      · simp only [datasetLen, Option.getD_some, List.length_take]
        omega
      rename_i hcond
      have hlen := fetch_loop_cond_len m hm all_items page.items h hcond
      split
      · simp only [datasetLen, List.length_append] at *
        omega
      split
      · simp only [datasetLen, List.length_append] at *
        omega
      · exact ih _ _ hlen

/-- Claim C5: pagination always terminates — no more than 1000 pages are
ever requested regardless of the client's behaviour, and with a positive
`max_records` cap `m` the returned dataset holds at most `m` records
(exactly `m` when the cap fires); the loop stops on an absent token, the
record cap, or the 1000-page ceiling. -/
theorem pagination_terminates_within_bounds {ε α : Type}
    (client : Nat → Except ε (ResultPage α)) (mr : Option Nat) (m : Nat) (hm : 0 < m) :
    pagesIssued client mr ≤ 1000 ∧
    datasetLen (get_full_dataset_paginated client (some m)) ≤ m :=
  ⟨fetch_loop_pages_le client mr 1000 [] 0 (by omega),
   fetch_loop_truncates client m hm 1000 [] 0 (by simpa using hm)⟩

/-- Witness for C5 at the three-page client stub and cap 7. -/
theorem pagination_terminates_within_bounds_witness :
    pagesIssued client3 none ≤ 1000 ∧
    datasetLen (get_full_dataset_paginated client3 (some 7)) ≤ 7 :=
  pagination_terminates_within_bounds client3 none 7 (by decide)

/-- Counterexample to claim C3 as stated: when both attempts raise,
the exception reaching the per-combination handler is the
`AttributeError` from evaluating `data.items` on the absent result, not
the primary attempt's error — and the handler swallows it and continues,
so the primary error is never propagated to the caller. -/
theorem fallback_both_raise_counterexample :
    (combo_body (ε := Nat) (.error 0) (.error 1)).1 = .error .noneItemsAttribute ∧
    (combo_body (ε := Nat) (.error 0) (.error 1)).1 ≠ .error (.client 0) ∧
    comboRecords (ε := Nat) ((.error 0), (.error 1)) = [] := by
  refine ⟨rfl, ?_, rfl⟩
  decide

/-- Claim C3 (amended): if the primary attempt raises, the alternate
attempt is still issued exactly once; if both attempts raise, no error
propagates to the caller — the body's result is the `AttributeError`
raised by `data.items` on the absent result, which the per-combination
handler catches, so the combination contributes nothing and processing
continues. -/
theorem fallback_error_isolation_amended (ε : Type) (alt : Except ε (List EmissionRec))
    (e e' : ε) :
    (combo_body (.error e) alt).2.count Attempt.alternate = 1 ∧
    (combo_body (.error e) (.error e')).1 = .error .noneItemsAttribute ∧
    comboRecords ((.error e), (.error e')) = [] := by
  refine ⟨?_, rfl, rfl⟩
  cases alt <;> simp [combo_body, List.count_cons]

/-- Counterexample to claim C4 as stated: with a primary attempt that
returns no data and an alternate attempt returning a non-empty list whose
only record has emission value exactly zero (i.e. both attempts yield
"no data" in the claim's sense), the produced dataset is that non-empty
all-zero list, not an empty dataset. -/
theorem fallback_zero_alternate_counterexample :
    (combo_body (ε := Unit) (.ok []) (.ok [zeroRec])).1 = .ok [zeroRec] ∧
    (Except.ok [zeroRec] : Except (ComboErr Unit) (List EmissionRec)) ≠ .ok [] := by
  constructor
  · rfl
  · intro h
    exact absurd (Except.ok.inj h) (by simp)

/-- Claim C4 (amended): the alternate `MARKET_BASED`/`SPEND_BASED` query
is issued exactly once whenever the primary attempt returns an empty item
list or only records with emission value exactly zero; the alternate's
successful result is returned as the dataset without an error — empty
when the alternate's item list is empty (the zero-emission test is
applied only to the primary attempt, so a non-empty all-zero alternate
result is returned as data). -/
theorem fallback_alternate_once_amended (ε : Type)
    (prim alt : Except ε (List EmissionRec)) (items l : List EmissionRec)
    (hp : prim = .ok items)
    (hz : items = [] ∨ ∀ r ∈ items, emissionVal r = 0)
    (ha : alt = .ok l) :
    (combo_body prim alt).2.count Attempt.alternate = 1 ∧
    (combo_body prim alt).1 = .ok l := by
  subst hp ha
  have hany : items.any (fun r => decide (0 < emissionVal r)) = false := by
    rcases hz with h | h
    · subst h; rfl
    · rw [List.any_eq_false]
      intro r hr
      simp [h r hr]
  simp [combo_body, hany, List.count_cons]

/-- Witness for the amended C4: an all-zero primary response triggers
exactly one alternate attempt, and an empty alternate yields the empty
dataset. -/
theorem fallback_alternate_once_amended_witness :
    (combo_body (ε := Unit) (.ok [zeroRec]) (.ok [])).2.count Attempt.alternate = 1 ∧
    (combo_body (ε := Unit) (.ok [zeroRec]) (.ok [])).1 = .ok [] :=
  fallback_alternate_once_amended Unit (.ok [zeroRec]) (.ok []) [zeroRec] [] rfl
    (Or.inr (by intro r hr; simp at hr; simp [hr, emissionVal, zeroRec])) rfl

/-- Claim C10: a failing combination contributes nothing but does not
abort the others — dropping it leaves the aggregated result of the
remaining combinations unchanged — and the multi-query run aborts with no
dataset exactly when every combination fails or returns nothing. -/
theorem multi_query_failure_isolation (ε : Type)
    (bad : Except ε (List EmissionRec) × Except ε (List EmissionRec))
    (rest combos : List (Except ε (List EmissionRec) × Except ε (List EmissionRec)))
    (hbad : comboRecords bad = []) :
    multi_query_dataset (bad :: rest) = multi_query_dataset rest ∧
    (multi_query_dataset combos = none ↔
      combos.all (fun c => (comboRecords c).isEmpty) = true) := by
  constructor
  · simp only [multi_query_dataset, List.map_cons, List.flatten_cons, hbad, List.nil_append]
  · simp only [multi_query_dataset]
    constructor
    · intro h
      split at h
      · rename_i hemp
        rw [List.isEmpty_iff, List.flatten_eq_nil_iff] at hemp
        rw [List.all_eq_true]
        intro c hc
        rw [List.isEmpty_iff]
        exact hemp _ (List.mem_map_of_mem comboRecords hc)
      · exact absurd h (by simp)
    · intro h
      rw [List.all_eq_true] at h
      have hemp : ((combos.map comboRecords).flatten).isEmpty = true := by
        rw [List.isEmpty_iff, List.flatten_eq_nil_iff]
        intro l hl
        rw [List.mem_map] at hl
        obtain ⟨c, hc, rfl⟩ := hl
        exact List.isEmpty_iff.mp (h c hc)
      simp [hemp]

/-- Witness for C10: a combination whose two attempts both raise is
skipped, the remaining combination's records form the dataset, and a run
where every combination yields nothing aborts with no dataset. -/
theorem multi_query_failure_isolation_witness :
    multi_query_dataset ((((.error 0), (.error 0)) :
        Except Nat (List EmissionRec) × Except Nat (List EmissionRec)) ::
      [((.ok [recA]), (.ok []))]) =
      multi_query_dataset (ε := Nat) [((.ok [recA]), (.ok []))] ∧
    (multi_query_dataset (ε := Nat) [((.ok []), (.ok [])), ((.error 0), (.error 0))] = none ↔
      ([((.ok []), (.ok [])), ((.error 0), (.error 0))] :
          List (Except Nat (List EmissionRec) × Except Nat (List EmissionRec))).all
        (fun c => (comboRecords c).isEmpty) = true) :=
  multi_query_failure_isolation Nat ((.error 0), (.error 0)) [((.ok [recA]), (.ok []))]
    [((.ok []), (.ok [])), ((.error 0), (.error 0))] rfl

/-! ## Lemmas for the date normalizer (claim C6) -/

/-- `digitVal` inverts `digitChar` on the rendered digit. -/
theorem digitVal_digitChar (n : Nat) : digitVal (digitChar n) = some (n % 10) := by
  have h : ∀ k, k < 10 → digitVal (Char.ofNat (48 + k)) = some k := by decide
  have e : digitChar n = Char.ofNat (48 + n % 10) := rfl
  rw [e]
  exact h (n % 10) (Nat.mod_lt n (by omega))

/-- Rendered digits are never the letter `Z`. -/
theorem digitChar_ne_Z (n : Nat) : digitChar n ≠ 'Z' := by
  have h : ∀ k, k < 10 → Char.ofNat (48 + k) ≠ 'Z' := by decide
  have e : digitChar n = Char.ofNat (48 + n % 10) := rfl
  rw [e]
  exact h (n % 10) (Nat.mod_lt n (by omega))

/-- Reading back a two-digit zero-padded numeral. -/
theorem read2_pad2 (n : Nat) (hn : n ≤ 99) (rest : List Char) :
    read2 (pad2 n ++ rest) = some (n, rest) := by
  have h1 := digitVal_digitChar (n / 10)
  have h2 := digitVal_digitChar n
  simp only [pad2, List.cons_append, List.nil_append, read2, h1, h2, Option.some.injEq,
    Prod.mk.injEq]
  exact ⟨by omega, trivial⟩

/-- Reading back a four-digit zero-padded numeral. -/
theorem read4_pad4 (n : Nat) (hn : n ≤ 9999) (rest : List Char) :
    read4 (pad4 n ++ rest) = some (n, rest) := by
  have h1 := digitVal_digitChar (n / 1000)
  have h2 := digitVal_digitChar (n / 100)
  have h3 := digitVal_digitChar (n / 10)
  have h4 := digitVal_digitChar n
  simp only [pad4, List.cons_append, List.nil_append, read4, h1, h2, h3, h4,
    Option.some.injEq, Prod.mk.injEq]
  exact ⟨by omega, trivial⟩

/-- A parsed digit value is at most 9. -/
theorem digitVal_le {c : Char} {x : Nat} (h : digitVal c = some x) : x ≤ 9 := by
  unfold digitVal at h
  split at h
  · rename_i hc
    obtain rfl := Option.some.inj h
    omega
  · exact absurd h (by simp)

/-- A four-digit read is at most 9999. -/
theorem read4_le {cs : List Char} {y : Nat} {rest : List Char}
    (h : read4 cs = some (y, rest)) : y ≤ 9999 := by
  unfold read4 at h
  split at h
  · split at h
    · rename_i ha hb hc hd
      simp only [Option.some.injEq, Prod.mk.injEq] at h
      obtain ⟨hv, -⟩ := h
      have h1 := digitVal_le ha
      have h2 := digitVal_le hb
      have h3 := digitVal_le hc
      have h4 := digitVal_le hd
      omega
    · exact absurd h (by simp)
  · exact absurd h (by simp)

/-- Bounds delivered by a successful `parseYMD`. -/
theorem parseYMD_bounds {cs : List Char} {y m d : Nat} {rest : List Char}
    (h : parseYMD cs = some ((y, m, d), rest)) :
    1 ≤ y ∧ y ≤ 9999 ∧ 1 ≤ m ∧ m ≤ 12 := by
  unfold parseYMD at h
  split at h
  · exact absurd h (by simp)
  · rename_i v hread
    split at h
    · exact absurd h (by simp)
    · split at h
      · exact absurd h (by simp)
      · split at h
        · exact absurd h (by simp)
        · split at h
          · exact absurd h (by simp)
          · split at h
            · rename_i hcheck
              simp only [Option.some.injEq, Prod.mk.injEq] at h
              obtain ⟨⟨hy, hm, hd⟩, -⟩ := h
              have hle := read4_le hread
              exact ⟨by omega, by omega, by omega, by omega⟩
            · exact absurd h (by simp)

/-- `replaceZ` distributes over concatenation. -/
theorem replaceZ_append (l1 l2 : List Char) :
    replaceZ (l1 ++ l2) = replaceZ l1 ++ replaceZ l2 := by
  induction l1 with
  | nil => simp [replaceZ]
  | cons c cs ih => simp [replaceZ, ih, List.append_assoc]

/-- `replaceZ` leaves a `Z`-free string unchanged. -/
theorem replaceZ_of_ne (l : List Char) (h : ∀ c ∈ l, c ≠ 'Z') : replaceZ l = l := by
  induction l with
  | nil => rfl
  | cons c cs ih =>
    rw [replaceZ, if_neg (h c (by simp))]
    simp [ih (fun x hx => h x (by simp [hx]))]

/-- The four-digit year rendering contains no `Z`. -/
theorem pad4_ne_Z (n : Nat) : ∀ c ∈ pad4 n, c ≠ 'Z' := by
  intro c hc
  simp only [pad4, List.mem_cons, List.not_mem_nil, or_false] at hc
  rcases hc with rfl | rfl | rfl | rfl <;> exact digitChar_ne_Z _

/-- The two-digit month rendering contains no `Z`. -/
theorem pad2_ne_Z (n : Nat) : ∀ c ∈ pad2 n, c ≠ 'Z' := by
  intro c hc
  simp only [pad2, List.mem_cons, List.not_mem_nil, or_false] at hc
  rcases hc with rfl | rfl <;> exact digitChar_ne_Z _

/-- For years of at least 1000 the unpadded rendering coincides with the
four-digit one. -/
theorem fmtYear_of_ge (y : Nat) (hy : 1000 ≤ y) : fmtYear y = pad4 y := by
  unfold fmtYear
  rw [if_neg (by omega), if_neg (by omega), if_neg (by omega)]

/-- The year rendering contains no `Z`. -/
theorem fmtYear_ne_Z (n : Nat) : ∀ c ∈ fmtYear n, c ≠ 'Z' := by
  intro c hc
  unfold fmtYear at hc
  split at hc
  · simp only [List.mem_cons, List.not_mem_nil, or_false] at hc
    subst hc; exact digitChar_ne_Z _
  · split at hc
    · simp only [List.mem_cons, List.not_mem_nil, or_false] at hc
      rcases hc with rfl | rfl <;> exact digitChar_ne_Z _
    · split at hc
      · simp only [List.mem_cons, List.not_mem_nil, or_false] at hc
        rcases hc with rfl | rfl | rfl <;> exact digitChar_ne_Z _
      · exact pad4_ne_Z n c hc

/-- Replacing `Z` in the normalizer output turns its trailing `Z` into
`+00:00` and leaves the rest unchanged. -/
theorem replaceZ_fmtFirstOfMonth (y m : Nat) :
    replaceZ (fmtFirstOfMonth y m) =
      fmtYear y ++ '-' :: pad2 m ++
        ['-', '0', '1', 'T', '0', '0', ':', '0', '0', ':', '0', '0',
         '+', '0', '0', ':', '0', '0'] := by
  unfold fmtFirstOfMonth
  rw [replaceZ_append, replaceZ_append, replaceZ_of_ne (fmtYear y) (fmtYear_ne_Z y)]
  have htail : replaceZ ['-', '0', '1', 'T', '0', '0', ':', '0', '0', ':', '0', '0', 'Z'] =
      ['-', '0', '1', 'T', '0', '0', ':', '0', '0', ':', '0', '0',
       '+', '0', '0', ':', '0', '0'] := by decide
  have hmid : replaceZ ('-' :: pad2 m) = '-' :: pad2 m := by
    apply replaceZ_of_ne
    intro c hc
    simp only [List.mem_cons] at hc
    rcases hc with rfl | hc
    · decide
    · exact pad2_ne_Z m c hc
  rw [htail, hmid]

/-- A month between 1 and 12 always has at least one day. -/
theorem daysInMonth_pos (y m : Nat) : 1 ≤ daysInMonth y m := by
  unfold daysInMonth
  split
  · split <;> omega
  · split <;> omega

/-- `parseYMD` reads back a formatted `YYYY-MM-01` prefix. -/
theorem parseYMD_fmt (y m : Nat) (rest : List Char)
    (hy1 : 1000 ≤ y) (hy2 : y ≤ 9999) (hm1 : 1 ≤ m) (hm2 : m ≤ 12) :
    parseYMD (pad4 y ++ '-' :: pad2 m ++ '-' :: '0' :: '1' :: rest) =
      some ((y, m, 1), rest) := by
  have hv0 : digitVal '0' = some 0 := by decide
  have hv1 : digitVal '1' = some 1 := by decide
  unfold parseYMD
  rw [show pad4 y ++ '-' :: pad2 m ++ '-' :: '0' :: '1' :: rest =
        pad4 y ++ ('-' :: (pad2 m ++ '-' :: '0' :: '1' :: rest)) from by
      simp [List.append_assoc]]
  rw [read4_pad4 y hy2]
  simp only [expectChar, reduceIte]
  rw [read2_pad2 m (by omega)]
  simp only [expectChar, reduceIte, read2, hv0, hv1]
  norm_num
  intro hcontra
  have := daysInMonth_pos y m
  omega

/-- The normalizer's own output parses back to the same first-of-month
date: the ISO branch applies (the output contains `T`), the trailing `Z`
becomes `+00:00`, the date part reads back as `(y, m, 1)`, and the
constant time tail is accepted. -/
theorem parse_fmtFirstOfMonth (y m : Nat)
    (hy1 : 1000 ≤ y) (hy2 : y ≤ 9999) (hm1 : 1 ≤ m) (hm2 : m ≤ 12) :
    parse_and_validate_datetime (fmtFirstOfMonth y m) = some (fmtFirstOfMonth y m) := by
  have hT : 'T' ∈ fmtFirstOfMonth y m := by
    simp [fmtFirstOfMonth]
  have htime : parseTimeTail ['0', '0', ':', '0', '0', ':', '0', '0',
      '+', '0', '0', ':', '0', '0'] = some () := by decide
  rw [parse_and_validate_datetime, if_pos hT, replaceZ_fmtFirstOfMonth,
    fmtYear_of_ge y hy1]
  rw [show pad4 y ++ '-' :: pad2 m ++
        ['-', '0', '1', 'T', '0', '0', ':', '0', '0', ':', '0', '0',
         '+', '0', '0', ':', '0', '0'] =
      pad4 y ++ '-' :: pad2 m ++ '-' :: '0' :: '1' ::
        ('T' :: ['0', '0', ':', '0', '0', ':', '0', '0', '+', '0', '0', ':', '0', '0'])
    from by simp]
  rw [parseYMD_fmt y m _ hy1 hy2 hm1 hm2]
  simp only [expectChar, reduceIte, htime]

/-- The year rendered at the front of a normalizer output. -/
def yearOf (t : List Char) : Nat := ((read4 t).getD (0, [])).1

/-- The month rendered after the year in a normalizer output. -/
def monthOf (t : List Char) : Nat := ((read2 (t.drop 5)).getD (0, [])).1

/-- `yearOf` recovers the year of a formatted first-of-month string with
a four-digit year. -/
theorem yearOf_fmt (y m : Nat) (hy0 : 1000 ≤ y) (hy : y ≤ 9999) :
    yearOf (fmtFirstOfMonth y m) = y := by
  unfold yearOf fmtFirstOfMonth
  rw [fmtYear_of_ge y hy0]
  rw [show pad4 y ++ '-' :: pad2 m ++
        ['-', '0', '1', 'T', '0', '0', ':', '0', '0', ':', '0', '0', 'Z'] =
      pad4 y ++ ('-' :: pad2 m ++
        ['-', '0', '1', 'T', '0', '0', ':', '0', '0', ':', '0', '0', 'Z'])
    from by simp]
  rw [read4_pad4 y hy]
  rfl

/-- `monthOf` recovers the month of a formatted first-of-month string
with a four-digit year. -/
theorem monthOf_fmt (y m : Nat) (hy0 : 1000 ≤ y) (hm : m ≤ 99) :
    monthOf (fmtFirstOfMonth y m) = m := by
  unfold monthOf
  have hdrop : (fmtFirstOfMonth y m).drop 5 =
      pad2 m ++ ['-', '0', '1', 'T', '0', '0', ':', '0', '0', ':', '0', '0', 'Z'] := by
    unfold fmtFirstOfMonth
    rw [fmtYear_of_ge y hy0]
    simp [pad4, List.cons_append, List.append_assoc]
  rw [hdrop, read2_pad2 m hm]
  rfl

/-- On an output whose year rendered with fewer than four digits,
`read4` meets the `-` separator and `yearOf` falls back to 0. -/
theorem yearOf_fmt_small (y m : Nat) (hy : y < 1000) :
    yearOf (fmtFirstOfMonth y m) = 0 := by
  have hdash : digitVal '-' = none := by decide
  unfold yearOf fmtFirstOfMonth fmtYear
  split_ifs with h1 h2 h3
  · simp [read4, List.cons_append, digitVal_digitChar, hdash, pad2]
  · simp [read4, List.cons_append, digitVal_digitChar, hdash, pad2]
  · simp [read4, List.cons_append, digitVal_digitChar, hdash, pad2]

/-- Counterexample to claim C6 as stated: the normalizer accepts the
four-digit-year input `0005-03-17`, but `strftime` renders year 5
without zero padding, so the output is `5-03-01T00:00:00Z` — not of the
claimed `YYYY-MM-01T00:00:00Z` form — and re-normalizing that output
fails (Python raises `ValueError` on it) instead of returning it
unchanged, refuting idempotence. -/
theorem normalize_short_year_counterexample :
    parse_and_validate_datetime "0005-03-17".toList =
      some "5-03-01T00:00:00Z".toList ∧
    parse_and_validate_datetime "5-03-01T00:00:00Z".toList = none ∧
    parse_and_validate_datetime "5-03-01T00:00:00Z".toList ≠
      some "5-03-01T00:00:00Z".toList := by
  refine ⟨by decide, by decide, by decide⟩

/-- Claim C6 (amended): an accepted date string whose year is at least
1000 normalizes to a string of the form `YYYY-MM-01T00:00:00Z` (day
forced to 1 and the time to midnight UTC, as `fmtFirstOfMonth` renders),
with a valid month, and the normalizer is idempotent on such strings:
its own output is accepted and re-normalizes to itself.  (For accepted
years 1-999 — excluded here via `yearOf` — `strftime` renders the year
unpadded, the output is not of that form, and re-normalizing it fails;
see the counterexample.) -/
theorem normalize_first_of_month_idempotent (s t : List Char)
    (h : parse_and_validate_datetime s = some t)
    (hy : 1000 ≤ yearOf t) :
    t = fmtFirstOfMonth (yearOf t) (monthOf t) ∧
    1 ≤ monthOf t ∧ monthOf t ≤ 12 ∧
    parse_and_validate_datetime t = some t := by
  have hshape : ∃ y m, 1 ≤ y ∧ y ≤ 9999 ∧ 1 ≤ m ∧ m ≤ 12 ∧
      t = fmtFirstOfMonth y m := by
    unfold parse_and_validate_datetime at h
    split at h
    · split at h
      · exact absurd h (by simp)
      · rename_i y m d rest heq
        split at h
        · exact absurd h (by simp)
        · rename_i r2 hexp
          split at h
          · rename_i u htt
            have ht := (Option.some.inj h).symm
            obtain ⟨hy1, hy2, hm1, hm2⟩ := parseYMD_bounds heq
            exact ⟨y, m, hy1, hy2, hm1, hm2, ht⟩
          · exact absurd h (by simp)
    · split at h
      · rename_i y m d heq
        have ht := (Option.some.inj h).symm
        obtain ⟨hy1, hy2, hm1, hm2⟩ := parseYMD_bounds heq
        exact ⟨y, m, hy1, hy2, hm1, hm2, ht⟩
      · exact absurd h (by simp)
  obtain ⟨y, m, hy1, hy2, hm1, hm2, rfl⟩ := hshape
  by_cases hbig : 1000 ≤ y
  · rw [yearOf_fmt y m hbig hy2, monthOf_fmt y m hbig (by omega)]
    exact ⟨rfl, hm1, hm2, parse_fmtFirstOfMonth y m hbig hy2 hm1 hm2⟩
  · rw [yearOf_fmt_small y m (by omega)] at hy
    omega

/-- Witness for C6 at the date-only input `2024-03-17`, which normalizes
to `2024-03-01T00:00:00Z`. -/
theorem normalize_first_of_month_idempotent_witness :
    "2024-03-01T00:00:00Z".toList =
        fmtFirstOfMonth (yearOf "2024-03-01T00:00:00Z".toList)
          (monthOf "2024-03-01T00:00:00Z".toList) ∧
    1 ≤ monthOf "2024-03-01T00:00:00Z".toList ∧
    monthOf "2024-03-01T00:00:00Z".toList ≤ 12 ∧
    parse_and_validate_datetime "2024-03-01T00:00:00Z".toList =
      some "2024-03-01T00:00:00Z".toList :=
  normalize_first_of_month_idempotent "2024-03-17".toList "2024-03-01T00:00:00Z".toList
    (by decide) (by decide)

/-- Witness for C7 with today = 2024-02-15. -/
theorem calculate_first_day_date_range_spec_witness :
    calculate_first_day_date_range "last_month" 2024 2 15 =
      some (fmtYMD (monthsEarlier 2024 2 1).1 (monthsEarlier 2024 2 1).2 1,
        fmtYMD 2024 2 1) ∧
    calculate_first_day_date_range "last_3_months" 2024 2 15 =
      some (fmtYMD (monthsEarlier 2024 2 3).1 (monthsEarlier 2024 2 3).2 1,
        fmtYMD 2024 2 1) ∧
    calculate_first_day_date_range "last_3_months" 2024 2 15 =
      some ("2023-11-01".toList, "2024-02-01".toList) ∧
    calculate_first_day_date_range "last_3_months" 2024 1 10 =
      some ("2023-10-01".toList, "2024-01-01".toList) :=
  calculate_first_day_date_range_spec 2024 2 15 (by decide) (by decide) (by decide)

end GreenOps
